import Mathlib

/-!
# RAG-GO: shallow embedding of the document/vector storage-and-retrieval engine

This file embeds the core of the RAG-GO repository in Lean 4 and proves /
refutes the specification claims about it.  The embedded functions are
translated from the Go sources:

* `internal/storage` (`VectorStore`: `AddDocument`, `GetDocument`, `GetVector`,
  `DeleteDocument`, `SearchSimilar`, `SearchSimilarWithFilter`,
  `cosineSimilarity`),
* `internal/processor` (`ChunkText`, `splitIntoSentences`),
* `internal/api` (the fragment loop shared by `handleDatabankUpload` and
  `handleCharacterChatUpload`),
* `internal/storage` (`ChatStore`: `SaveChat`, `updateCharacterInfo`).

Modelling conventions:

* Go strings are modelled as `List Char` (`GoStr`); `len` on a Go string is
  the UTF-8 byte count, modelled by `sLen` (sum of `Char.utf8Size`), which
  agrees with Go byte length for every unicode string.
* `float32` components are modelled as exact dyadic rationals `Dy`
  (an integer mantissa over a power-of-two denominator): every finite
  `float32` value is such a dyadic, and the additions and multiplications
  performed on the small concrete inputs below are exact in `float32`, so
  dyadic arithmetic coincides with the Go arithmetic there.  The rational
  value of a dyadic (`Dy.val`) is used in specification statements only.
* The badger key-value database is modelled as an association list from ids
  to documents; key iteration (`ValidForPrefix` over `doc:`) enumerates keys
  in ascending lexicographic byte order, modelled by sorting the ids.
* The per-id vector files are modelled as an association list from ids to
  raw byte lists, exactly as written by `AddDocument`.
* I/O faults (disk errors, serialisation failures) are outside the model:
  the modelled filesystem and database never fail to read an entry that is
  present and never fail to write.  A *missing* vector file is representable
  (an id absent from the `vectors` association list) because the source
  treats that case explicitly.
-/

set_option linter.unusedVariables false

namespace RagGo

/-- Go strings, modelled as lists of unicode code points. -/
abbrev GoStr := List Char

/-- Convert a Lean string literal to the `GoStr` model. -/
def gs (s : String) : GoStr := s.data

/-- Go `len(s)` on a string is its UTF-8 byte count. -/
def sLen (s : GoStr) : Nat := (s.map Char.utf8Size).sum

/-- Go byte-wise lexicographic string comparison `a < b` (UTF-8 byte order
coincides with code-point order). -/
def goStrLt : GoStr → GoStr → Bool
  | [], [] => false
  | [], _ :: _ => true
  | _ :: _, [] => false
  | a :: s, b :: t => if a < b then true else if b < a then false else goStrLt s t

/-! ## Exact `float32` values: dyadic rationals -/

/-- A dyadic rational `m / 2^e`.  Every finite `float32` value has this
form, and `float32` addition and multiplication are exact (agree with the
dyadic result) whenever no rounding occurs, which holds for all concrete
inputs used below. -/
structure Dy where
  m : Int
  e : Nat
  deriving DecidableEq, Repr

namespace Dy

def zero : Dy := ⟨0, 0⟩

/-- The rational value of a dyadic (specification level). -/
def val (a : Dy) : ℚ := (a.m : ℚ) / 2 ^ a.e

def mul (a b : Dy) : Dy := ⟨a.m * b.m, a.e + b.e⟩

def add (a b : Dy) : Dy := ⟨a.m * 2 ^ b.e + b.m * 2 ^ a.e, a.e + b.e⟩

/-- Value comparison `a < b`, decided by cross-multiplication. -/
def ltb (a b : Dy) : Bool := a.m * 2 ^ b.e < b.m * 2 ^ a.e

end Dy

/-! ## Similarity scores

`cosineSimilarity` in Go returns `dot/(√normA·√normB) : float32` (and `0`
when the lengths differ or a norm is zero).  The square root of a dyadic is
irrational in general, so the nonzero score is represented exactly by the
pair `(dot, nrm)` with `nrm = normA * normB > 0`; its real value is
`dot / √nrm`.  Comparisons of two scores (all the `sort.Slice` less
function ever does with them) are decided exactly through the rational key
`sign(value)·value² = sign(dot)·dot²/nrm`; `x ↦ sign(x)·x²` is strictly
increasing, so the key order is exactly the order of the real score
values, with no square root needed. -/

structure SimScore where
  dot : Dy
  nrm : Dy
  deriving DecidableEq, Repr

namespace SimScore

/-- The score `0` that `cosineSimilarity` returns on length mismatch or a
zero norm. -/
def zero : SimScore := ⟨Dy.zero, Dy.zero⟩

/-- Order-preserving rational key of a score: `sign(value)·value²`
(specification level).  A score with `nrm ≤ 0` only arises as the literal
zero score, whose value is `0`. -/
noncomputable def key (s : SimScore) : ℚ :=
  if s.nrm.val ≤ 0 then 0
  else if s.dot.val < 0 then -(s.dot.val ^ 2) / s.nrm.val
  else s.dot.val ^ 2 / s.nrm.val

/-- Sign of the score value: `0` when the norm product is not positive,
otherwise the sign of the dot product. -/
def sgn (s : SimScore) : Int :=
  if s.nrm.m ≤ 0 then 0 else Int.sign s.dot.m

/-- Decide `value s < value t` exactly: compare signs first, then
cross-multiply the squares (for equal nonzero signs,
`ds/√ns < dt/√nt  ↔  ds²·nt < dt²·ns` when both are positive, and the
reverse when both are negative). -/
def valLtb (s t : SimScore) : Bool :=
  if s.sgn < t.sgn then true
  else if t.sgn < s.sgn then false
  else if s.sgn = 0 then false
  else if 0 < s.sgn then Dy.ltb ((s.dot.mul s.dot).mul t.nrm) ((t.dot.mul t.dot).mul s.nrm)
  else Dy.ltb ((t.dot.mul t.dot).mul s.nrm) ((s.dot.mul s.dot).mul t.nrm)

end SimScore

/-! ## `cosineSimilarity` -/

/-- Go loop `dotProduct += a[i]*b[i]` (used with equal-length slices),
accumulating left to right. -/
def dotProduct (a b : List Dy) : Dy :=
  (List.zipWith Dy.mul a b).foldl Dy.add Dy.zero

/-- Go loop `normA += a[i]*a[i]`. -/
def sumSq (a : List Dy) : Dy := dotProduct a a

/-- `cosineSimilarity` from `internal/storage`:
returns `0` if the lengths differ; computes `dot`, `normA`, `normB`;
returns `0` if either norm is zero (float equality with `0`, i.e. value
equality, i.e. zero mantissa); otherwise `dot/(√normA·√normB)`, represented
exactly as the pair `⟨dot, normA*normB⟩` (note `normA = 0 ∨ normB = 0 ↔
normA*normB = 0` for the nonnegative norms). -/
def cosineSimilarity (a b : List Dy) : SimScore :=
  if a.length ≠ b.length then SimScore.zero
  else
    let dot := dotProduct a b
    let normA := sumSq a
    let normB := sumSq b
    if normA.m = 0 ∨ normB.m = 0 then SimScore.zero
    else ⟨dot, normA.mul normB⟩

/-! ## Vector byte encoding

`AddDocument` serialises each component `v : float32` as the 4 little-endian
bytes of `uint32(v)` — the Go *numeric* conversion, which truncates the
value toward zero (it is `math.Float32bits` that would reinterpret the
bits; the source does not use it).  `GetVector` rebuilds `bits : uint32`
from the bytes and returns `float32(bits)` — again numeric conversion,
exact for `bits < 2^24`; every decoded value below is far smaller, so the
model uses the exact value.  Go leaves the float→uint conversion
implementation-specific for negative or overflowing values; it is modelled
as `0` there, and no claim instance exercises that range. -/

/-- Go numeric conversion `uint32(v)`: truncation toward zero for
non-negative in-range values (`⌊m/2^e⌋ = m/2^e` in integer division). -/
def goUint32OfFloat (v : Dy) : Nat :=
  if 0 ≤ v.m then v.m.toNat / 2 ^ v.e % 2 ^ 32 else 0

/-- The 4 little-endian bytes `byte(u >> 0), byte(u >> 8), byte(u >> 16),
byte(u >> 24)` written for one component. -/
def encodeComponent (v : Dy) : List Nat :=
  let u := goUint32OfFloat v
  [u % 256, u / 256 % 256, u / 256 ^ 2 % 256, u / 256 ^ 3 % 256]

/-- The full vector file contents written by `AddDocument`: `4·len` bytes,
component `i` at byte offsets `i*4 .. i*4+4`. -/
def encodeVector (vec : List Dy) : List Nat := vec.flatMap encodeComponent

/-- `GetVector`'s decoding loop: `vectorLen = len(data)/4` groups of 4
little-endian bytes, each rebuilt into `bits` and converted with
`float32(bits)`. -/
def decodeVector : List Nat → List Dy
  | b0 :: b1 :: b2 :: b3 :: rest =>
      ⟨(b0 + b1 * 256 + b2 * 256 ^ 2 + b3 * 256 ^ 3 : Nat), 0⟩ :: decodeVector rest
  | _ => []

/-! ## The vector store -/

/-- Document metadata (`storage.Metadata`). -/
structure Metadata where
  source : GoStr
  title : GoStr
  tags : List GoStr
  custom : List (GoStr × GoStr)
  chunkID : Int
  chunkNum : Int
  deriving DecidableEq, Repr

/-- A stored document (`storage.Document`). -/
structure Document where
  id : GoStr
  content : GoStr
  metadata : Metadata
  deriving DecidableEq, Repr

/-- The `VectorStore` state: the badger database restricted to `doc:` keys
(id ↦ document) and the `vectors` directory (id ↦ raw file bytes). -/
structure VectorStore where
  db : List (GoStr × Document)
  vectors : List (GoStr × List Nat)
  deriving DecidableEq, Repr

def emptyStore : VectorStore := ⟨[], []⟩

/-- First-match association-list lookup (badger `txn.Get`, file read). -/
def lookup? {κ α : Type} [DecidableEq κ] (id : κ) : List (κ × α) → Option α
  | [] => none
  | (k, v) :: t => if k = id then some v else lookup? id t

/-- Key-value upsert: badger `txn.Set` / `os.WriteFile` overwrite the entry
for an existing key. -/
def upsert {κ α : Type} [DecidableEq κ] (id : κ) (v : α) (l : List (κ × α)) :
    List (κ × α) :=
  (l.filter fun p => p.1 ≠ id) ++ [(id, v)]

/-- Remove a key (badger `txn.Delete` / `os.Remove`); both succeed when the
key or file is absent (`txn.Delete` writes a tombstone regardless, and the
source explicitly ignores `os.IsNotExist` from `os.Remove`). -/
def removeKey {κ α : Type} [DecidableEq κ] (id : κ) (l : List (κ × α)) :
    List (κ × α) :=
  l.filter fun p => p.1 ≠ id

/-- `AddDocument`: stores the serialised document under key `doc:`+id and
writes the encoded vector file.  The source performs *no validation of the
vector* (in particular no dimension check); its only error paths are
serialisation/IO faults, which the model treats as absent, so the model is
total. -/
def AddDocument (doc : Document) (vector : List Dy) (vs : VectorStore) :
    VectorStore :=
  { db := upsert doc.id doc vs.db
    vectors := upsert doc.id (encodeVector vector) vs.vectors }

/-- `GetDocument`: badger lookup of `doc:`+id; `ErrKeyNotFound` is modelled
as `none`. -/
def GetDocument (id : GoStr) (vs : VectorStore) : Option Document :=
  lookup? id vs.db

/-- `GetVector`: read the vector file (missing file ⇒ error, modelled as
`none`) and decode it. -/
def GetVector (id : GoStr) (vs : VectorStore) : Option (List Dy) :=
  (lookup? id vs.vectors).map decodeVector

/-- `DeleteDocument`: badger delete of the key, then `os.Remove` of the
vector file with `os.IsNotExist` ignored.  Neither step reports an error
for a missing id, so absent IO faults the function always returns `nil`;
the `Except` result records that the Go signature can carry an error. -/
def DeleteDocument (id : GoStr) (vs : VectorStore) :
    Except GoStr VectorStore :=
  .ok { db := removeKey id vs.db, vectors := removeKey id vs.vectors }

/-! ## Sorting

`SearchSimilarWithFilter` sorts the `(id, similarity)` slice with
`sort.Slice(similarities, func(i, j) { return sim[i] > sim[j] })`.
Go's `sort.Slice` runs plain insertion sort on short slices (fewer than 7
elements in every Go version; fewer than 12 since Go 1.19), which is the
stable left-to-right insertion modelled by `stInsert`/`goSortBy` below:
each new element bubbles left only while *strictly* less than its left
neighbour, so it lands after any equal elements.  On longer slices Go's
algorithm is unstable, which can only further violate any claimed tie
order; every sortedness theorem below holds for any correct sort, and
every concrete instance uses a short slice where this model is exact. -/

/-- Insert `a` (the element that came later) into the already-sorted list
`l`: it is placed before the first element it is strictly `lt`-below,
i.e. after all equal elements (stability). -/
def stInsert {α : Type} (lt : α → α → Bool) (a : α) : List α → List α
  | [] => [a]
  | b :: t => if lt a b then a :: b :: t else b :: stInsert lt a t

/-- Left-to-right insertion sort: Go's `sort.Slice` on a short slice. -/
def goSortBy {α : Type} (lt : α → α → Bool) (l : List α) : List α :=
  l.foldl (fun s a => stInsert lt a s) []

/-- Badger iterates the keys with prefix `doc:` in ascending lexicographic
byte order; the ids therefore come out sorted, whatever the insertion
order was. -/
def sortedIDs (vs : VectorStore) : List GoStr :=
  goSortBy goStrLt (vs.db.map Prod.fst)

/-- The less function of the `sort.Slice` call:
`similarities[i].similarity > similarities[j].similarity`. -/
def simLt (a b : GoStr × SimScore) : Bool := SimScore.valLtb b.2 a.2

/-- The `similarities` slice built by `SearchSimilarWithFilter`: for every
enumerated id, read its vector — *skipping* ids whose vector cannot be
read (`continue`) — and score it against the query. -/
def searchSimilarities (vs : VectorStore) (queryVector : List Dy) :
    List (GoStr × SimScore) :=
  (sortedIDs vs).filterMap fun id =>
    match GetVector id vs with
    | none => none
    | some v => some (id, cosineSimilarity queryVector v)

/-- The `similarities` slice after the `sort.Slice` call and the
`limit`-truncation (`if limit > 0 && len(similarities) > limit`). -/
def searchLimited (vs : VectorStore) (queryVector : List Dy) (limit : Int) :
    List (GoStr × SimScore) :=
  if 0 < limit ∧
      limit < ((goSortBy simLt (searchSimilarities vs queryVector)).length : Int)
  then (goSortBy simLt (searchSimilarities vs queryVector)).take limit.toNat
  else goSortBy simLt (searchSimilarities vs queryVector)

/-- `SearchSimilarWithFilter` from the source.  Note that the body never
uses the `filter` argument (despite its own doc comment), which is why the
parameter is present but unused here as well.  Steps: enumerate all ids
with prefix `doc:`; score the readable vectors (`searchSimilarities`);
sort descending by similarity and truncate (`searchLimited`); finally
fetch each document, skipping ids whose document cannot be fetched (which
never happens for ids just enumerated from the database). -/
def SearchSimilarWithFilter (vs : VectorStore) (queryVector : List Dy)
    (limit : Int) (filter : Option (Document → Bool)) :
    List Document × List SimScore :=
  let pairs : List (Document × SimScore) :=
    (searchLimited vs queryVector limit).filterMap fun p =>
      (GetDocument p.1 vs).map fun d => (d, p.2)
  (pairs.map Prod.fst, pairs.map Prod.snd)

/-- `SearchSimilar` delegates with a `nil` filter. -/
def SearchSimilar (vs : VectorStore) (queryVector : List Dy) (limit : Int) :
    List Document × List SimScore :=
  SearchSimilarWithFilter vs queryVector limit none

/-! ## The chunker (`internal/processor`, `ChunkText`)

`strings.Split` on a separator, working directly on the `List Char`
model.  `splitOn2` is `strings.Split(s, sep)` for the two-character
separator `"\n\n"`, `splitOn1` for a one-character separator; both follow
Go's semantics: non-overlapping leftmost matches, empty segments kept. -/

/-- Prepend a character to the first segment. -/
def consHead (a : Char) : List GoStr → List GoStr
  | [] => [[a]]
  | h :: t => (a :: h) :: t

/-- `strings.Split(s, string([c₁, c₂]))`. -/
def splitOn2 (c₁ c₂ : Char) : GoStr → List GoStr
  | [] => [[]]
  | [a] => [[a]]
  | a :: b :: rest =>
      if a = c₁ ∧ b = c₂ then [] :: splitOn2 c₁ c₂ rest
      else consHead a (splitOn2 c₁ c₂ (b :: rest))

/-- `strings.Split(s, string(c))`. -/
def splitOn1 (c : Char) : GoStr → List GoStr
  | [] => [[]]
  | a :: rest =>
      if a = c then [] :: splitOn1 c rest else consHead a (splitOn1 c rest)

/-- The paragraphs of a text: `strings.Split(text, "\n\n")`. -/
def paragraphsOf (text : GoStr) : List GoStr := splitOn2 '\n' '\n' text

/-- The sentence delimiters of `splitIntoSentences`, in source order. -/
def sentenceDelims : List Char := ['.', '!', '?', '；', '。', '！', '？']

/-- The inner loop of `splitIntoSentences` for one delimiter: every part
except the last gets the delimiter re-appended; empty parts are skipped. -/
def reattach (delim : Char) : List GoStr → List GoStr
  | [] => []
  | [p] => if p = [] then [] else [p]
  | p :: rest =>
      if p = [] then reattach delim rest
      else (p ++ [delim]) :: reattach delim rest

/-- `splitIntoSentences`: start from `[text]` and split by each delimiter
in turn, re-appending the delimiter to all but the last part. -/
def splitIntoSentences (text : GoStr) : List GoStr :=
  sentenceDelims.foldl
    (fun sentences d => sentences.flatMap fun s => reattach d (splitOn1 d s))
    [text]

/-- The overlap seed of a new chunk: the trailing `overlap` whitespace-split
words of the chunk just emitted, or `""` when `overlap ≤ 0`
(`words := strings.Split(cur, " "); overlapStart := len(words) -
min(len(words), overlap); strings.Join(words[overlapStart:], " ")`). -/
def overlapTail (overlap : Int) (cur : GoStr) : GoStr :=
  let words := splitOn1 ' ' cur
  if 0 < words.length ∧ 0 < overlap then
    List.intercalate [' ']
      (words.drop (words.length - min words.length overlap.toNat))
  else []

/-- One step of the sentence loop inside `ChunkText` (the
`len(paragraph) > chunkSize` branch), on state `(chunks, currentChunk)`. -/
def processSentence (chunkSize overlap : Int) (st : List GoStr × GoStr)
    (sentence : GoStr) : List GoStr × GoStr :=
  let chunks := st.1
  let cur := st.2
  if (sLen cur + sLen sentence + 1 : Int) ≤ chunkSize then
    (chunks, (if cur ≠ [] then cur ++ [' '] else cur) ++ sentence)
  else
    let flushed :=
      if cur ≠ [] then (chunks ++ [cur], overlapTail overlap cur)
      else (chunks, cur)
    if (sLen sentence : Int) > chunkSize then
      (flushed.1 ++ [sentence], [])
    else
      (flushed.1,
        (if flushed.2 ≠ [] then flushed.2 ++ [' '] else flushed.2) ++ sentence)

/-- One step of the paragraph loop of `ChunkText`: oversized paragraphs go
through the sentence loop; otherwise the paragraph is appended to the
current chunk (with a `"\n\n"` separator) if it fits, and the current chunk
is flushed (keeping the overlap tail) if it does not (note: `+2` for the
separator in the fit test, and no separator before the paragraph after a
flush — both exactly as in the source). -/
def processParagraph (chunkSize overlap : Int) (st : List GoStr × GoStr)
    (paragraph : GoStr) : List GoStr × GoStr :=
  if (sLen paragraph : Int) > chunkSize then
    (splitIntoSentences paragraph).foldl (processSentence chunkSize overlap) st
  else
    let chunks := st.1
    let cur := st.2
    if (sLen cur + sLen paragraph + 2 : Int) ≤ chunkSize then
      (chunks, (if cur ≠ [] then cur ++ ['\n', '\n'] else cur) ++ paragraph)
    else
      let flushed :=
        if cur ≠ [] then (chunks ++ [cur], overlapTail overlap cur)
        else (chunks, cur)
      (flushed.1, flushed.2 ++ paragraph)

/-- `ChunkText text chunkSize overlap`: normalise the configuration
(`chunkSize ≤ 0 ⇒ 1000`; `overlap < 0 ∨ overlap ≥ chunkSize ⇒
chunkSize/5`), split into paragraphs, fold the paragraph loop, and append
the final non-empty current chunk. -/
def ChunkText (text : GoStr) (chunkSize overlap : Int) : List GoStr :=
  let cs := if chunkSize ≤ 0 then 1000 else chunkSize
  let ov := if overlap < 0 ∨ overlap ≥ cs then cs / 5 else overlap
  let folded := (paragraphsOf text).foldl (processParagraph cs ov) ([], [])
  if folded.2 ≠ [] then folded.1 ++ [folded.2] else folded.1

/-! ## The ingestion fragment loop (`handleDatabankUpload`,
`handleCharacterChatUpload`)

Both upload handlers run the same loop over the fragments returned by the
chunker: generate a fresh id, append it to `docIDs`, build the document,
call the embedding provider, store document and vector; on an embedding (or
store) error they immediately return the error JSON
`gin.H{"error": ...}` — which carries *only* the message — and stop; on
success they return `gin.H{"message", "document_ids", "chunks"}`.  The
response is modelled field by field; `none` models an absent JSON key. -/

/-- The JSON response of an upload handler: `error` on the error path;
`document_ids` and `chunks` on the success path. -/
structure UploadResponse where
  errorMsg : Option GoStr
  documentIDs : Option (List GoStr)
  chunkCount : Option Nat
  deriving DecidableEq, Repr

/-- The parsed request body of `handleDatabankUpload`. -/
structure UploadReq where
  name : GoStr
  content : GoStr
  type : GoStr
  deriving DecidableEq, Repr

/-- The document built for fragment `i` by `handleDatabankUpload`. -/
def buildDatabankDoc (req : UploadReq) (uploadTime : GoStr) (i : Nat)
    (docID chunk : GoStr) (total : Nat) : Document :=
  ⟨docID, chunk,
    ⟨req.type, req.name, [gs "databank", req.type],
      [(gs "upload_time", uploadTime)], i, total⟩⟩

/-- The fragment loop shared by the upload handlers.  `embed` is the
external embedding provider (`model.EmbeddingModel.GetEmbedding`), `ids i`
the fresh uuid generated for fragment `i`, `mkDoc` the handler-specific
document constructor.  Note that the fresh id is appended to `docIDs`
*before* the embedding call, and that the error response drops `docIDs`
entirely (the Go error message is `"生成嵌入向量失败: %v"`, modelled as an
ASCII prefix). -/
def uploadLoop (embed : GoStr → Except GoStr (List Dy)) (ids : Nat → GoStr)
    (mkDoc : Nat → GoStr → GoStr → Document) (total : Nat) :
    Nat → List GoStr → List GoStr → VectorStore → UploadResponse × VectorStore
  | _, docIDs, [], st => (⟨none, some docIDs, some total⟩, st)
  | i, docIDs, chunk :: rest, st =>
      let docID := ids i
      let doc := mkDoc i docID chunk
      match embed chunk with
      | .error e => (⟨some (gs "embed failed: " ++ e), none, none⟩, st)
      | .ok vector =>
          uploadLoop embed ids mkDoc total (i + 1) (docIDs ++ [docID]) rest
            (AddDocument doc vector st)

/-- `handleDatabankUpload` (after JSON binding): reject empty content,
chunk with the fixed configuration `(1000, 200)`, run the fragment loop. -/
def handleDatabankUpload (embed : GoStr → Except GoStr (List Dy))
    (ids : Nat → GoStr) (uploadTime : GoStr) (req : UploadReq)
    (st : VectorStore) : UploadResponse × VectorStore :=
  if req.content = [] then (⟨some (gs "content must not be empty"), none, none⟩, st)
  else
    let chunks := ChunkText req.content 1000 200
    uploadLoop embed ids
      (fun i docID chunk => buildDatabankDoc req uploadTime i docID chunk chunks.length)
      chunks.length 0 [] chunks st

/-! ## The chat archive (`internal/storage`, `ChatStore`) -/

/-- A chat message (`processor.ChatMessage`). -/
structure ChatMessage where
  role : GoStr
  content : GoStr
  time : GoStr
  deriving DecidableEq, Repr

/-- A chat history as submitted by the caller (`processor.ChatHistory`). -/
structure ChatHistory where
  messages : List ChatMessage
  title : GoStr
  id : GoStr
  deriving DecidableEq, Repr

/-- The summary info block (`storage.ChatInfo`); timestamps are abstract
instants (`time.Time` values, totally ordered). -/
structure ChatInfo where
  id : GoStr
  title : GoStr
  character : GoStr
  createdAt : Int
  updatedAt : Int
  messageCount : Nat
  deriving DecidableEq, Repr

/-- The persisted shape of one chat file: the info block plus the message
list. -/
structure ChatRecord where
  info : ChatInfo
  messages : List ChatMessage
  deriving DecidableEq, Repr

/-- The `ChatStore` filesystem: one file per `(character, id)` holding a
`ChatRecord`, and one `_info.json` per character holding the summary
list. -/
structure ChatStore where
  files : List ((GoStr × GoStr) × ChatRecord)
  infos : List (GoStr × List ChatInfo)
  deriving DecidableEq, Repr

def emptyChatStore : ChatStore := ⟨[], []⟩

/-- `updateCharacterInfo`'s list update: replace the first entry with the
same `ID`, or append when none matches. -/
def updateInfoList (chatInfo : ChatInfo) : List ChatInfo → List ChatInfo
  | [] => [chatInfo]
  | i :: t =>
      if i.id = chatInfo.id then chatInfo :: t
      else i :: updateInfoList chatInfo t

/-- `updateCharacterInfo`: read the character's `_info.json` (absent file ⇒
empty list), update or append this chat's info, write it back. -/
def updateCharacterInfo (character : GoStr) (chatInfo : ChatInfo)
    (cs : ChatStore) : ChatStore :=
  let chats := (lookup? character cs.infos).getD []
  { cs with infos := upsert character (updateInfoList chatInfo chats) cs.infos }

/-- `SaveChat character chat` at instant `now`: build the info block with
`CreatedAt = UpdatedAt = now`; if a file for `(character, chat.ID)` already
exists, carry its `CreatedAt` forward; write the file, then refresh the
character's index. -/
def SaveChat (now : Int) (character : GoStr) (chat : ChatHistory)
    (cs : ChatStore) : ChatStore :=
  let info0 : ChatInfo :=
    ⟨chat.id, chat.title, character, now, now, chat.messages.length⟩
  let info :=
    match lookup? (character, chat.id) cs.files with
    | some old => { info0 with createdAt := old.info.createdAt }
    | none => info0
  let cs' : ChatStore :=
    { cs with files := upsert (character, chat.id) ⟨info, chat.messages⟩ cs.files }
  updateCharacterInfo character info cs'

/-! ## Auxiliary specification-level definitions -/

/-- The normalised chunk size used inside `ChunkText`
(`chunkSize ≤ 0 ⇒ 1000`). -/
def normalizedChunkSize (chunkSize : Int) : Int :=
  if chunkSize ≤ 0 then 1000 else chunkSize

/-- Invariant of the `(chunks, currentChunk)` state of `ChunkText`: some
output has been produced or is pending. -/
def chunkStateOk (st : List GoStr × GoStr) : Prop := st.1 ≠ [] ∨ st.2 ≠ []

/-- The store state after committing a prefix of fragments: exactly what
the upload loop has persisted when it stops.  Fragments are committed in
order until the first embedding failure (or the end of the list). -/
def commitChunks (embed : GoStr → Except GoStr (List Dy)) (ids : Nat → GoStr)
    (mkDoc : Nat → GoStr → GoStr → Document) :
    Nat → List GoStr → VectorStore → VectorStore
  | _, [], st => st
  | i, ch :: rest, st =>
      match embed ch with
      | .ok v =>
          commitChunks embed ids mkDoc (i + 1) rest
            (AddDocument (mkDoc i (ids i) ch) v st)
      | .error _ => st

/-- Modelled from the spec: the little-endian IEEE-754 binary32 encoding
of the value `0.5` (sign `0`, exponent `0x7E`, mantissa `0`), i.e. the
bytes the spec's on-disk contract (`each 4-byte group a little-endian
IEEE-754 32-bit float`) requires for a stored component `0.5`. -/
def ieee754HalfLE : List Nat := [0x00, 0x00, 0x00, 0x3F]

/-! ## Concrete instances used by counterexamples and witnesses -/

/-- A minimal metadata block. -/
def meta0 : Metadata := ⟨gs "s", gs "t", [], [], 0, 1⟩

def docA : Document := ⟨gs "a", gs "content a", meta0⟩

def docB : Document := ⟨gs "b", gs "content b", meta0⟩

/-- A store holding only `docA` with the 1-dimensional vector `[1]`. -/
def stA : VectorStore := AddDocument docA [⟨1, 0⟩] emptyStore

/-- A store built by inserting `docB` first and `docA` second, both with
the zero vector `[0]` (so both score `0` against any query). -/
def stBA : VectorStore :=
  AddDocument docA [⟨0, 0⟩] (AddDocument docB [⟨0, 0⟩] emptyStore)

/-- The nonzero score of a perfect 1-dimensional match: `dot = 1`,
`normA*normB = 1` (value `1`). -/
def oneScore : SimScore := ⟨⟨1, 0⟩, ⟨1, 0⟩⟩

/-- The document whose stored vector is `[0.5]`. -/
def docHalf : Document := ⟨gs "d", gs "content half", meta0⟩

/-- The store after `AddDocument(docHalf, [0.5])`. -/
def stHalf : VectorStore := AddDocument docHalf [⟨1, 1⟩] emptyStore

/-- A document added with a vector of length 3 (spec scenario: a length
different from the embedding dimension the store is supposed to be
configured for). -/
def docDim : Document := ⟨gs "d3", gs "content d3", meta0⟩

def stDim : VectorStore :=
  AddDocument docDim [⟨1, 0⟩, ⟨2, 0⟩, ⟨3, 0⟩] emptyStore

/-- A document whose stored vector has 2 components (mismatching the
1-dimensional queries used below). -/
def docMis : Document := ⟨gs "m", gs "content m", meta0⟩

/-- `docA` with a matching 1-dimensional vector and `docMis` with a
2-dimensional vector, in one store. -/
def stMis : VectorStore :=
  AddDocument docMis [⟨1, 0⟩, ⟨1, 0⟩] (AddDocument docA [⟨1, 0⟩] emptyStore)

/-- A store where `docB` is present in the database but its vector file is
missing, next to an intact `docA`. -/
def stNoVec : VectorStore :=
  { db := [(gs "a", docA), (gs "b", docB)]
    vectors := [(gs "a", encodeVector [⟨1, 0⟩])] }

/-- The embedding double used by the ingestion counterexample: fails on
the fragment `"B"`, succeeds with `[1]` elsewhere. -/
def embedBoom : GoStr → Except GoStr (List Dy) := fun s =>
  if s = gs "B" then .error (gs "boom") else .ok [⟨1, 0⟩]

/-- A deterministic id supply standing in for `uuid.New()`. -/
def idsFn : Nat → GoStr := fun i => gs "id" ++ List.replicate i 'x'

def reqAB : UploadReq := ⟨gs "n", gs "unused", gs "text"⟩

/-- The document constructor of `handleDatabankUpload` for the concrete
request. -/
def mkDocAB : Nat → GoStr → GoStr → Document := fun i docID chunk =>
  buildDatabankDoc reqAB (gs "t0") i docID chunk 2

/-- A chat history used by the archive instances. -/
def chat1 : ChatHistory :=
  ⟨[⟨gs "user", gs "hi", gs ""⟩], gs "T", gs "c1"⟩

/-- A chat store already holding a version of `("Aria", "c1")` created at
instant `5`. -/
def csPrior : ChatStore :=
  ⟨[((gs "Aria", gs "c1"),
      ⟨⟨gs "c1", gs "old title", gs "Aria", 5, 5, 1⟩,
        [⟨gs "user", gs "old", gs ""⟩]⟩)],
    [(gs "Aria", [⟨gs "c1", gs "old title", gs "Aria", 5, 5, 1⟩])]⟩

/-! # Supporting lemmas -/

/-! ## Dyadic values -/

theorem Dy.two_pow_pos (e : Nat) : (0 : ℚ) < 2 ^ e := by positivity

theorem Dy.val_mul (a b : Dy) : (a.mul b).val = a.val * b.val := by
  simp only [val, mul]
  push_cast
  rw [pow_add]
  field_simp

theorem Dy.ltb_iff (a b : Dy) : Dy.ltb a b = true ↔ a.val < b.val := by
  simp only [ltb, val, decide_eq_true_eq]
  rw [div_lt_div_iff₀ (two_pow_pos a.e) (two_pow_pos b.e)]
  exact_mod_cast Iff.rfl

theorem Dy.val_neg_iff (a : Dy) : a.val < 0 ↔ a.m < 0 := by
  rw [val, div_lt_iff₀ (two_pow_pos a.e), zero_mul]
  exact_mod_cast Iff.rfl

theorem Dy.val_pos_iff (a : Dy) : 0 < a.val ↔ 0 < a.m := by
  rw [val, lt_div_iff₀ (two_pow_pos a.e), zero_mul]
  exact_mod_cast Iff.rfl

theorem Dy.val_nonpos_iff (a : Dy) : a.val ≤ 0 ↔ a.m ≤ 0 := by
  rw [← not_lt, ← not_lt, Dy.val_pos_iff]

/-! ## Score comparison: the boolean comparator decides the key order -/

theorem SimScore.sgn_cases (s : SimScore) :
    s.sgn = -1 ∨ s.sgn = 0 ∨ s.sgn = 1 := by
  unfold sgn
  split
  · exact Or.inr (Or.inl rfl)
  · rcases lt_trichotomy s.dot.m 0 with h | h | h
    · exact Or.inl (Int.sign_eq_neg_one_iff_neg.mpr h)
    · exact Or.inr (Or.inl (by rw [h]; rfl))
    · exact Or.inr (Or.inr (Int.sign_eq_one_iff_pos.mpr h))

theorem SimScore.sgn_one_elim {s : SimScore} (h : s.sgn = 1) :
    0 < s.nrm.m ∧ 0 < s.dot.m := by
  unfold sgn at h
  split at h
  · exact absurd h (by decide)
  · exact ⟨by omega, Int.sign_eq_one_iff_pos.mp h⟩

theorem SimScore.sgn_negone_elim {s : SimScore} (h : s.sgn = -1) :
    0 < s.nrm.m ∧ s.dot.m < 0 := by
  unfold sgn at h
  split at h
  · exact absurd h (by decide)
  · exact ⟨by omega, Int.sign_eq_neg_one_iff_neg.mp h⟩

theorem SimScore.key_eq_zero_of_sgn_zero {s : SimScore} (h : s.sgn = 0) :
    s.key = 0 := by
  unfold sgn at h
  unfold key
  split at h
  · rw [if_pos ((Dy.val_nonpos_iff s.nrm).mpr (by omega))]
  · have hm : s.dot.m = 0 := Int.sign_eq_zero_iff_zero.mp h
    have hval : s.dot.val = 0 := by simp [Dy.val, hm]
    rw [if_neg (by rw [not_le]; exact (Dy.val_pos_iff s.nrm).mpr (by omega)),
      if_neg (by rw [hval]; exact lt_irrefl 0), hval]
    simp

theorem SimScore.key_of_sgn_one {s : SimScore} (h : s.sgn = 1) :
    s.key = s.dot.val ^ 2 / s.nrm.val := by
  obtain ⟨hn, hd⟩ := sgn_one_elim h
  unfold key
  rw [if_neg (by rw [not_le]; exact (Dy.val_pos_iff s.nrm).mpr hn),
    if_neg (by rw [not_lt]; exact ((Dy.val_pos_iff s.dot).mpr hd).le)]

theorem SimScore.key_of_sgn_negone {s : SimScore} (h : s.sgn = -1) :
    s.key = -(s.dot.val ^ 2) / s.nrm.val := by
  obtain ⟨hn, hd⟩ := sgn_negone_elim h
  unfold key
  rw [if_neg (by rw [not_le]; exact (Dy.val_pos_iff s.nrm).mpr hn),
    if_pos ((Dy.val_neg_iff s.dot).mpr hd)]

theorem SimScore.key_pos_of_sgn_one {s : SimScore} (h : s.sgn = 1) :
    0 < s.key := by
  obtain ⟨hn, hd⟩ := sgn_one_elim h
  rw [key_of_sgn_one h]
  exact div_pos (pow_pos ((Dy.val_pos_iff s.dot).mpr hd) 2)
    ((Dy.val_pos_iff s.nrm).mpr hn)

theorem SimScore.key_neg_of_sgn_negone {s : SimScore} (h : s.sgn = -1) :
    s.key < 0 := by
  obtain ⟨hn, hd⟩ := sgn_negone_elim h
  have hdv : s.dot.val < 0 := (Dy.val_neg_iff s.dot).mpr hd
  rw [key_of_sgn_negone h]
  refine div_neg_of_neg_of_pos ?_ ((Dy.val_pos_iff s.nrm).mpr hn)
  rw [neg_lt_zero, pow_two]
  exact mul_pos_of_neg_of_neg hdv hdv

theorem SimScore.key_lt_of_sgn_lt {s t : SimScore} (h : s.sgn < t.sgn) :
    s.key < t.key := by
  rcases sgn_cases s with hs | hs | hs <;>
    rcases sgn_cases t with ht | ht | ht <;>
      rw [hs, ht] at h <;> try omega
  · rw [key_eq_zero_of_sgn_zero ht]
    exact key_neg_of_sgn_negone hs
  · exact (key_neg_of_sgn_negone hs).trans (key_pos_of_sgn_one ht)
  · rw [key_eq_zero_of_sgn_zero hs]
    exact key_pos_of_sgn_one ht

theorem SimScore.valLtb_iff (s t : SimScore) :
    SimScore.valLtb s t = true ↔ s.key < t.key := by
  unfold valLtb
  split_ifs with h1 h2 h3 h4
  · simpa using key_lt_of_sgn_lt h1
  · simpa using (key_lt_of_sgn_lt h2).le
  · have ht : t.sgn = 0 := by omega
    simp [key_eq_zero_of_sgn_zero h3, key_eq_zero_of_sgn_zero ht]
  · have hs1 : s.sgn = 1 := by rcases sgn_cases s with h | h | h <;> omega
    have ht1 : t.sgn = 1 := by omega
    obtain ⟨hsn, _⟩ := sgn_one_elim hs1
    obtain ⟨htn, _⟩ := sgn_one_elim ht1
    rw [Dy.ltb_iff, Dy.val_mul, Dy.val_mul, Dy.val_mul, Dy.val_mul,
      key_of_sgn_one hs1, key_of_sgn_one ht1,
      div_lt_div_iff₀ ((Dy.val_pos_iff s.nrm).mpr hsn)
        ((Dy.val_pos_iff t.nrm).mpr htn),
      pow_two, pow_two]
  · have hs1 : s.sgn = -1 := by rcases sgn_cases s with h | h | h <;> omega
    have ht1 : t.sgn = -1 := by omega
    obtain ⟨hsn, _⟩ := sgn_negone_elim hs1
    obtain ⟨htn, _⟩ := sgn_negone_elim ht1
    rw [Dy.ltb_iff, Dy.val_mul, Dy.val_mul, Dy.val_mul, Dy.val_mul,
      key_of_sgn_negone hs1, key_of_sgn_negone ht1,
      div_lt_div_iff₀ ((Dy.val_pos_iff s.nrm).mpr hsn)
        ((Dy.val_pos_iff t.nrm).mpr htn),
      pow_two, pow_two]
    constructor
    · intro hlt; nlinarith
    · intro hlt; nlinarith

theorem SimScore.valLtb_false_iff (s t : SimScore) :
    SimScore.valLtb s t = false ↔ t.key ≤ s.key := by
  rw [← not_lt, ← valLtb_iff]
  cases h : SimScore.valLtb s t <;> simp [h]

/-! ## Insertion sort -/

theorem mem_stInsert {α : Type} (lt : α → α → Bool) (a x : α) (l : List α) :
    x ∈ stInsert lt a l ↔ x = a ∨ x ∈ l := by
  induction l with
  | nil => simp [stInsert]
  | cons b t ih =>
      unfold stInsert
      by_cases h : lt a b = true
      · simp [h]
      · simp [h, ih]
        tauto

theorem pairwise_stInsert {α : Type} (lt : α → α → Bool) (R : α → α → Prop)
    (h1 : ∀ a b, lt a b = false → R b a)
    (h2 : ∀ a b, lt a b = true → R a b)
    (h3 : ∀ a b c, lt a b = true → R b c → R a c)
    (a : α) (l : List α) (hl : l.Pairwise R) :
    (stInsert lt a l).Pairwise R := by
  induction l with
  | nil => simp [stInsert]
  | cons b t ih =>
      rw [List.pairwise_cons] at hl
      obtain ⟨hb, ht⟩ := hl
      unfold stInsert
      by_cases h : lt a b = true
      · rw [if_pos h, List.pairwise_cons]
        refine ⟨?_, List.Pairwise.cons hb ht⟩
        intro x hx
        rcases List.mem_cons.mp hx with rfl | hx
        · exact h2 a x h
        · exact h3 a b x h (hb x hx)
      · rw [if_neg h, List.pairwise_cons]
        refine ⟨?_, ih ht⟩
        intro x hx
        rcases (mem_stInsert lt a x t).mp hx with rfl | hx
        · exact h1 x b (Bool.not_eq_true _ ▸ h)
        · exact hb x hx

theorem pairwise_goSortBy {α : Type} (lt : α → α → Bool) (R : α → α → Prop)
    (h1 : ∀ a b, lt a b = false → R b a)
    (h2 : ∀ a b, lt a b = true → R a b)
    (h3 : ∀ a b c, lt a b = true → R b c → R a c)
    (l : List α) : (goSortBy lt l).Pairwise R := by
  suffices H : ∀ acc : List α, acc.Pairwise R →
      (l.foldl (fun s a => stInsert lt a s) acc).Pairwise R by
    exact H [] List.Pairwise.nil
  induction l with
  | nil => intro acc hacc; exact hacc
  | cons c t ih =>
      intro acc hacc
      exact ih _ (pairwise_stInsert lt R h1 h2 h3 c acc hacc)

theorem mem_goSortBy {α : Type} (lt : α → α → Bool) (x : α) (l : List α) :
    x ∈ goSortBy lt l ↔ x ∈ l := by
  suffices H : ∀ acc : List α,
      (x ∈ l.foldl (fun s a => stInsert lt a s) acc ↔ x ∈ acc ∨ x ∈ l) by
    simpa using H []
  induction l with
  | nil => intro acc; simp
  | cons c t ih =>
      intro acc
      rw [List.foldl_cons, ih, mem_stInsert]
      simp only [List.mem_cons]
      tauto

/-! ## Association lists -/

theorem lookup?_upsert_self {κ α : Type} [DecidableEq κ] (id : κ) (v : α)
    (l : List (κ × α)) : lookup? id (upsert id v l) = some v := by
  unfold upsert
  induction l with
  | nil => simp [lookup?]
  | cons p t ih =>
      by_cases h : p.1 = id
      · simpa [List.filter_cons, h] using ih
      · simpa [List.filter_cons, h, lookup?] using ih

theorem lookup?_removeKey_self {κ α : Type} [DecidableEq κ] (id : κ)
    (l : List (κ × α)) : lookup? id (removeKey id l) = none := by
  unfold removeKey
  induction l with
  | nil => rfl
  | cons p t ih =>
      by_cases h : p.1 = id
      · simpa [List.filter_cons, h] using ih
      · simpa [List.filter_cons, h, lookup?] using ih

theorem lookup?_some_mem {κ α : Type} [DecidableEq κ] {id : κ} {v : α}
    {l : List (κ × α)} (h : lookup? id l = some v) : (id, v) ∈ l := by
  induction l with
  | nil => exact absurd h (by simp [lookup?])
  | cons p t ih =>
      unfold lookup? at h
      split_ifs at h with hk
      · obtain ⟨rfl⟩ := Option.some_injective _ h
        rw [← hk]
        exact List.mem_cons_self p t
      · exact List.mem_cons_of_mem p (ih h)

/-! ## The fetch step of search -/

theorem map_snd_filterMap_sublist {α β γ : Type} (g : α → Option γ)
    (l : List (α × β)) :
    ((l.filterMap fun p => (g p.1).map fun d => (d, p.2)).map Prod.snd).Sublist
      (l.map Prod.snd) := by
  induction l with
  | nil => simp
  | cons p t ih =>
      rw [List.filterMap_cons]
      cases h : g p.1 with
      | none => simpa using List.Sublist.cons p.2 ih
      | some d => simpa using List.Sublist.cons₂ p.2 ih

/-! # Claim theorems -/

/-- C1: the claim says a search with a predicate returns only documents
satisfying it.  In the source, `SearchSimilarWithFilter` never uses its
`filter` argument, so filtered search is identical to unfiltered search:
the first conjunct shows the filter has *no* effect whatsoever, and the
second evaluates the failing input — a store whose only document is
rejected by the predicate, yet is returned. -/
theorem C1_filter_has_no_effect :
    (∀ (vs : VectorStore) (q : List Dy) (limit : Int)
        (f : Option (Document → Bool)),
        SearchSimilarWithFilter vs q limit f = SearchSimilar vs q limit) ∧
    (SearchSimilarWithFilter stA [⟨1, 0⟩] 5 (some fun _ => false)).1 = [docA] :=
  ⟨fun _ _ _ _ => rfl, by decide⟩

/-- C2: evaluating the store at the failing input vector `[0.5]`: the
on-disk bytes are `[0,0,0,0]` (the numeric conversion `uint32(0.5)`
truncates to `0`), not the IEEE-754 little-endian encoding
`[0x00,0x00,0x00,0x3F]` of `0.5`, and `get_vector` returns `[0]` rather
than `[0.5]` — the round-trip and the byte-format claims both fail. -/
theorem C2_roundtrip_fails :
    lookup? (gs "d") stHalf.vectors = some [0, 0, 0, 0] ∧
    lookup? (gs "d") stHalf.vectors ≠ some ieee754HalfLE ∧
    GetVector (gs "d") stHalf = some [⟨0, 0⟩] ∧
    (⟨1, 1⟩ : Dy).val = 1 / 2 ∧ (⟨0, 0⟩ : Dy).val = 0 := by
  refine ⟨by decide, by decide, by decide, ?_, ?_⟩ <;> norm_num [Dy.val]

/-- C3 counterexample: the claim says adding a vector whose length differs
from the configured dimension fails with `InvalidInput` and persists
nothing.  The source performs no dimension check: adding `docDim` with the
3-component vector `[1,2,3]` (into a store whose embedding dimension is
768) succeeds and persists both the document and the vector. -/
theorem C3_counterexample :
    GetDocument (gs "d3") stDim = some docDim ∧
    GetVector (gs "d3") stDim = some [⟨1, 0⟩, ⟨2, 0⟩, ⟨3, 0⟩] := by decide

/-- C3 amended: `AddDocument` validates nothing; for every document and
vector of *any* length it succeeds, and both the document and the encoded
vector become visible. -/
theorem C3_amended (doc : Document) (vector : List Dy) (vs : VectorStore) :
    GetDocument doc.id (AddDocument doc vector vs) = some doc ∧
    GetVector doc.id (AddDocument doc vector vs) =
      some (decodeVector (encodeVector vector)) := by
  constructor
  · exact lookup?_upsert_self doc.id doc vs.db
  · unfold GetVector AddDocument
    rw [lookup?_upsert_self]
    rfl

/-- C4 counterexample: the claim says deleting a nonexistent id is a
reported error.  Deleting the absent id `"x"` from the empty store returns
success (`nil` error) with the store unchanged: badger's `txn.Delete` does
not fail on a missing key and the source explicitly ignores
`os.IsNotExist` from `os.Remove`. -/
theorem C4_counterexample :
    DeleteDocument (gs "x") emptyStore = .ok emptyStore := rfl

/-- C4 amended: `DeleteDocument` always succeeds — for present ids it
removes document and vector, for absent ids it is a silent no-op — so a
double delete is *not* observable as an error. -/
theorem C4_amended (id : GoStr) (vs : VectorStore) :
    ∃ vs', DeleteDocument id vs = .ok vs' ∧
      GetDocument id vs' = none ∧ GetVector id vs' = none := by
  refine ⟨_, rfl, lookup?_removeKey_self id vs.db, ?_⟩
  unfold GetVector
  rw [lookup?_removeKey_self]
  rfl

/-- The sorted-and-truncated slice is pairwise ordered: no entry is
value-below a later entry (descending similarity). -/
theorem pairwise_searchLimited (vs : VectorStore) (q : List Dy)
    (limit : Int) :
    (searchLimited vs q limit).Pairwise
      (fun p p' => SimScore.valLtb p.2 p'.2 = false) := by
  have hsorted : (goSortBy simLt (searchSimilarities vs q)).Pairwise
      (fun p p' => SimScore.valLtb p.2 p'.2 = false) := by
    refine pairwise_goSortBy _ _ ?_ ?_ ?_ _
    · exact fun a b hab => hab
    · intro a b hab
      rw [SimScore.valLtb_false_iff]
      exact ((SimScore.valLtb_iff _ _).mp hab).le
    · intro a b c hab hbc
      rw [SimScore.valLtb_false_iff] at hbc ⊢
      exact hbc.trans ((SimScore.valLtb_iff _ _).mp hab).le
  unfold searchLimited
  split_ifs with hc
  · exact List.Pairwise.sublist (List.take_sublist _ _) hsorted
  · exact hsorted

/-- C6 amended: for a positive `limit`, search returns at most `limit`
results, in non-increasing score order (the rational `key` is strictly
order-isomorphic to the real score value).  The part of the claim this
drops is the tie rule: equal scores are returned in ascending document-id
(store enumeration) order, not insertion order — see the
counterexample. -/
theorem C6_amended (vs : VectorStore) (q : List Dy) (limit : Int)
    (f : Option (Document → Bool)) (h : 0 < limit) :
    ((SearchSimilarWithFilter vs q limit f).1.length : Int) ≤ limit ∧
    (SearchSimilarWithFilter vs q limit f).2.Pairwise
      (fun s t => t.key ≤ s.key) := by
  constructor
  · have h1 : (SearchSimilarWithFilter vs q limit f).1.length ≤
        (searchLimited vs q limit).length := by
      unfold SearchSimilarWithFilter
      simp only [List.length_map]
      exact List.length_filterMap_le _ _
    have h2 : ((searchLimited vs q limit).length : Int) ≤ limit := by
      unfold searchLimited
      split_ifs with hc
      · rw [List.length_take]
        have hmin : min limit.toNat
            (goSortBy simLt (searchSimilarities vs q)).length ≤ limit.toNat :=
          Nat.min_le_left _ _
        have hcast : (limit.toNat : Int) = limit := Int.toNat_of_nonneg h.le
        omega
      · push_neg at hc
        exact hc h
    exact le_trans (by exact_mod_cast h1) h2
  · unfold SearchSimilarWithFilter
    dsimp only
    refine List.Pairwise.sublist
      (map_snd_filterMap_sublist (fun id => GetDocument id vs)
        (searchLimited vs q limit)) ?_
    rw [List.pairwise_map]
    exact (pairwise_searchLimited vs q limit).imp
      fun hpq => (SimScore.valLtb_false_iff _ _).mp hpq

/-- C6 witness: the amended statement at the concrete two-document store
and `limit = 5`. -/
theorem C6_witness :
    ((SearchSimilarWithFilter stBA [⟨1, 0⟩] 5 none).1.length : Int) ≤ 5 ∧
    (SearchSimilarWithFilter stBA [⟨1, 0⟩] 5 none).2.Pairwise
      (fun s t => t.key ≤ s.key) :=
  C6_amended stBA [⟨1, 0⟩] 5 none (by decide)

/-- C6 counterexample: `stBA` was built by inserting `docB` (id `"b"`)
first and `docA` (id `"a"`) second; both score `0` against the query, yet
the tie comes back as `[docA, docB]` — ascending id (badger enumeration)
order, not the insertion order `[docB, docA]` the claim requires. -/
theorem C6_counterexample :
    (SearchSimilarWithFilter stBA [⟨1, 0⟩] 5 none).1 = [docA, docB] ∧
    (SearchSimilarWithFilter stBA [⟨1, 0⟩] 5 none).2 =
      [SimScore.zero, SimScore.zero] := by decide

/-- C8: every document returned by a search has a readable vector — a
document whose vector file is missing is skipped (`continue`), and the
search still completes over the remaining documents.  The hypothesis says
the store is well formed: each database entry is keyed by its document's
id (which `AddDocument` guarantees). -/
theorem C8_unreadable_vector_excluded (vs : VectorStore) (q : List Dy)
    (limit : Int) (f : Option (Document → Bool))
    (hwf : ∀ p ∈ vs.db, p.1 = p.2.id) :
    ∀ d ∈ (SearchSimilarWithFilter vs q limit f).1,
      (GetVector d.id vs).isSome = true := by
  intro d hd
  unfold SearchSimilarWithFilter at hd
  dsimp only at hd
  rw [List.mem_map] at hd
  obtain ⟨pr, hpr, rfl⟩ := hd
  rw [List.mem_filterMap] at hpr
  obtain ⟨p, hp, hps⟩ := hpr
  rw [Option.map_eq_some'] at hps
  obtain ⟨doc, hdoc, hpr2⟩ := hps
  have hpmem : p ∈ searchSimilarities vs q := by
    unfold searchLimited at hp
    split_ifs at hp with hc
    · exact (mem_goSortBy _ _ _).mp (List.mem_of_mem_take hp)
    · exact (mem_goSortBy _ _ _).mp hp
  unfold searchSimilarities at hpmem
  rw [List.mem_filterMap] at hpmem
  obtain ⟨id, hid, hmatch⟩ := hpmem
  cases hv : GetVector id vs with
  | none =>
      rw [hv] at hmatch
      exact absurd hmatch (by simp)
  | some v =>
      rw [hv] at hmatch
      have hp1 : p.1 = id := by
        rw [← Option.some_inj.mp hmatch]
      have hmem := lookup?_some_mem hdoc
      have hid2 : p.1 = doc.id := hwf _ hmem
      rw [← hpr2]
      dsimp only
      rw [← hid2, hp1, hv]
      rfl

/-- C8 witness: in `stNoVec`, document `"b"` is present in the database
but its vector file is missing; the search returns exactly `docA` (with a
readable vector) and succeeds. -/
theorem C8_witness :
    (GetVector docA.id stNoVec).isSome = true ∧
    SearchSimilarWithFilter stNoVec [⟨1, 0⟩] 5 none = ([docA], [oneScore]) :=
  ⟨C8_unreadable_vector_excluded stNoVec [⟨1, 0⟩] 5 none (by decide) docA
      (by decide),
    by decide⟩

/-- C10: `cosineSimilarity` returns `0` whenever the two vectors have
different lengths (no out-of-range access is possible in the model), and a
stored vector of mismatched length is still *ranked* — the concrete store
`stMis` holds a matching 1-component vector and a mismatched 2-component
one, and the search returns both, the mismatched one with score `0`. -/
theorem C10_mismatch_scored_zero (a b : List Dy)
    (h : a.length ≠ b.length) :
    cosineSimilarity a b = SimScore.zero ∧
    SearchSimilarWithFilter stMis [⟨1, 0⟩] 5 none =
      ([docA, docMis], [oneScore, SimScore.zero]) := by
  constructor
  · unfold cosineSimilarity
    rw [if_pos h]
  · decide

/-- C10 witness: the mismatch statement at the concrete query `[1]`
against the 2-component vector `[1, 1]`. -/
theorem C10_witness :
    cosineSimilarity [⟨1, 0⟩] [⟨1, 0⟩, ⟨1, 0⟩] = SimScore.zero ∧
    SearchSimilarWithFilter stMis [⟨1, 0⟩] 5 none =
      ([docA, docMis], [oneScore, SimScore.zero]) :=
  C10_mismatch_scored_zero [⟨1, 0⟩] [⟨1, 0⟩, ⟨1, 0⟩] (by decide)

/-- C5 counterexample: ingesting the two fragments `["A", "B"]` where
embedding `"B"` fails: fragment `"A"` was committed (its document is
retrievable under the generated id), yet the error response carries *no*
`document_ids` — the caller is not told how far ingestion got. -/
theorem C5_counterexample :
    (uploadLoop embedBoom idsFn mkDocAB 2 0 [] [gs "A", gs "B"]
        emptyStore).1.documentIDs = none ∧
    (uploadLoop embedBoom idsFn mkDocAB 2 0 [] [gs "A", gs "B"]
        emptyStore).1.errorMsg = some (gs "embed failed: boom") ∧
    GetDocument (gs "id")
        (uploadLoop embedBoom idsFn mkDocAB 2 0 [] [gs "A", gs "B"]
          emptyStore).2 =
      some (mkDocAB 0 (gs "id") (gs "A")) := by decide

/-- C5 amended: when embedding fragment `k` fails, the remaining fragments
are not processed and the fragments before `k` stay committed
(`commitChunks`), but the surfaced error carries only a message — the
partial `document_ids` are not included in the response. -/
theorem C5_amended (embed : GoStr → Except GoStr (List Dy))
    (ids : Nat → GoStr) (mkDoc : Nat → GoStr → GoStr → Document)
    (total : Nat) (pre : List GoStr) (c : GoStr) (rest : List GoStr)
    (i : Nat) (docIDs : List GoStr) (st : VectorStore)
    (hok : ∀ ch ∈ pre, ∃ v, embed ch = .ok v)
    (hfail : ∀ v, embed c ≠ .ok v) :
    ∃ e, uploadLoop embed ids mkDoc total i docIDs (pre ++ c :: rest) st =
      (⟨some (gs "embed failed: " ++ e), none, none⟩,
        commitChunks embed ids mkDoc i pre st) := by
  induction pre generalizing i docIDs st with
  | nil =>
      cases he : embed c with
      | ok v => exact absurd he (hfail v)
      | error e =>
          refine ⟨e, ?_⟩
          simp only [List.nil_append, uploadLoop, commitChunks, he]
  | cons p t ih =>
      obtain ⟨v, hv⟩ := hok p (List.mem_cons_self p t)
      obtain ⟨e, he⟩ :=
        ih (i + 1) (docIDs ++ [ids i]) (AddDocument (mkDoc i (ids i) p) v st)
          (fun ch hch => hok ch (List.mem_cons_of_mem p hch))
      refine ⟨e, ?_⟩
      rw [List.cons_append]
      simp only [uploadLoop, commitChunks, hv]
      exact he

/-- C5 witness: the amended statement at the concrete failing ingestion
(`pre = ["A"]`, failing fragment `"B"`). -/
theorem C5_witness :
    ∃ e, uploadLoop embedBoom idsFn mkDocAB 2 0 [] ([gs "A"] ++ gs "B" :: [])
        emptyStore =
      (⟨some (gs "embed failed: " ++ e), none, none⟩,
        commitChunks embedBoom idsFn mkDocAB 0 [gs "A"] emptyStore) :=
  C5_amended embedBoom idsFn mkDocAB 2 [gs "A"] (gs "B") [] 0 [] emptyStore
    (by
      intro ch hch
      rw [List.mem_singleton] at hch
      subst hch
      exact ⟨[⟨1, 0⟩], rfl⟩)
    (by
      intro v hv
      rw [show embedBoom (gs "B") = .error (gs "boom") from rfl] at hv
      exact Except.noConfusion hv)

/-! ## Chunker invariants (C7) -/

theorem ne_nil_of_left_ne_nil {α : Type} {l t : List α} (h : l ≠ []) :
    l ++ t ≠ [] :=
  fun hc => h (List.append_eq_nil.mp hc).1

theorem ne_nil_of_right_ne_nil {α : Type} {l t : List α} (h : t ≠ []) :
    l ++ t ≠ [] :=
  fun hc => h (List.append_eq_nil.mp hc).2

theorem snoc_ne_nil {α : Type} (l : List α) (c : α) : l ++ [c] ≠ [] :=
  ne_nil_of_right_ne_nil (by simp)

/-- The sentence loop preserves the chunk-state invariant. -/
theorem processSentence_ok (chunkSize overlap : Int)
    (st : List GoStr × GoStr) (s : GoStr) (h : chunkStateOk st) :
    chunkStateOk (processSentence chunkSize overlap st s) := by
  obtain ⟨chunks, cur⟩ := st
  unfold chunkStateOk at h
  dsimp only at h
  unfold processSentence chunkStateOk
  dsimp only
  by_cases h1 : (sLen cur + sLen s + 1 : Int) ≤ chunkSize
  · rw [if_pos h1]
    rcases h with h | h
    · exact Or.inl h
    · refine Or.inr ?_
      rw [if_pos h]
      exact ne_nil_of_left_ne_nil (ne_nil_of_left_ne_nil h)
  · rw [if_neg h1]
    by_cases h2 : cur ≠ []
    · rw [if_pos h2]
      by_cases h3 : (sLen s : Int) > chunkSize
      · rw [if_pos h3]
        exact Or.inl (snoc_ne_nil (chunks ++ [cur]) s)
      · rw [if_neg h3]
        exact Or.inl (snoc_ne_nil chunks cur)
    · rw [if_neg h2]
      have hchunks : chunks ≠ [] := by
        rcases h with h | h
        · exact h
        · exact absurd h h2
      by_cases h3 : (sLen s : Int) > chunkSize
      · rw [if_pos h3]
        exact Or.inl (snoc_ne_nil chunks s)
      · rw [if_neg h3]
        exact Or.inl hchunks

/-- The paragraph loop preserves the chunk-state invariant. -/
theorem processParagraph_ok (chunkSize overlap : Int)
    (st : List GoStr × GoStr) (p : GoStr) (h : chunkStateOk st) :
    chunkStateOk (processParagraph chunkSize overlap st p) := by
  unfold processParagraph
  by_cases h1 : (sLen p : Int) > chunkSize
  · rw [if_pos h1]
    clear h1
    induction splitIntoSentences p generalizing st with
    | nil => exact h
    | cons s rest ih =>
        rw [List.foldl_cons]
        exact ih _ (processSentence_ok chunkSize overlap st s h)
  · rw [if_neg h1]
    obtain ⟨chunks, cur⟩ := st
    unfold chunkStateOk at h
    dsimp only at h ⊢
    by_cases h2 : (sLen cur + sLen p + 2 : Int) ≤ chunkSize
    · rw [if_pos h2]
      rcases h with h | h
      · exact Or.inl h
      · refine Or.inr ?_
        rw [if_pos h]
        exact ne_nil_of_left_ne_nil (ne_nil_of_left_ne_nil h)
    · rw [if_neg h2]
      by_cases h3 : cur ≠ []
      · rw [if_pos h3]
        exact Or.inl (snoc_ne_nil chunks cur)
      · rw [if_neg h3]
        rcases h with h | h
        · exact Or.inl h
        · exact absurd h h3

/-- A nonempty paragraph that fits the chunk size establishes the
invariant. -/
theorem processParagraph_establish (chunkSize overlap : Int)
    (st : List GoStr × GoStr) (p : GoStr) (hp : p ≠ [])
    (hfit : (sLen p : Int) ≤ chunkSize) :
    chunkStateOk (processParagraph chunkSize overlap st p) := by
  obtain ⟨chunks, cur⟩ := st
  unfold processParagraph chunkStateOk
  rw [if_neg (by omega)]
  dsimp only
  by_cases h2 : (sLen cur + sLen p + 2 : Int) ≤ chunkSize
  · rw [if_pos h2]
    exact Or.inr (ne_nil_of_right_ne_nil hp)
  · rw [if_neg h2]
    exact Or.inr (ne_nil_of_right_ne_nil hp)

/-- The paragraph fold preserves the invariant. -/
theorem foldl_processParagraph_ok (chunkSize overlap : Int)
    (l : List GoStr) (st : List GoStr × GoStr) (h : chunkStateOk st) :
    chunkStateOk (l.foldl (processParagraph chunkSize overlap) st) := by
  induction l generalizing st with
  | nil => exact h
  | cons p t ih =>
      rw [List.foldl_cons]
      exact ih _ (processParagraph_ok _ _ st p h)

/-- The final emission step of `ChunkText` returns a non-empty list from
any state satisfying the invariant. -/
theorem chunkStateOk_emit {st : List GoStr × GoStr} (h : chunkStateOk st) :
    (if st.2 ≠ [] then st.1 ++ [st.2] else st.1) ≠ [] := by
  by_cases hc : st.2 ≠ []
  · rw [if_pos hc]
    exact snoc_ne_nil _ _
  · rw [if_neg hc]
    rcases h with h | h
    · exact h
    · exact absurd h hc

/-- Processing the empty paragraph in the initial state leaves the state
empty (for a positive chunk size). -/
theorem processParagraph_empty (cs ov : Int) (hpos : 0 < cs) :
    processParagraph cs ov ([], []) [] = ([], []) := by
  unfold processParagraph
  rw [if_neg (by
    simp only [sLen, List.map_nil, List.sum_nil, Nat.cast_zero]
    omega)]
  dsimp only
  by_cases h2 : (sLen ([] : GoStr) + sLen ([] : GoStr) + 2 : Int) ≤ cs
  · rw [if_pos h2]
    rfl
  · rw [if_neg h2]
    rfl

/-- C7 counterexample: the input `"\n\n"` is a non-empty string, yet
`ChunkText` returns zero fragments for it (both of its paragraphs are
empty, so nothing is ever emitted). -/
theorem C7_counterexample :
    gs "\n\n" ≠ [] ∧ ChunkText (gs "\n\n") 1000 200 = [] := by decide

/-- C7 amended: the empty input produces zero fragments, and a non-empty
input produces at least one fragment *provided* some paragraph is
non-empty and fits the normalised chunk size.  (The claim's unconditional
"non-empty input ⇒ at least one fragment" fails: inputs all of whose
paragraphs are empty — e.g. `"\n\n"` — and oversized paragraphs that
dissolve entirely into delimiters produce no fragment.) -/
theorem C7_amended :
    (∀ chunkSize overlap : Int, ChunkText [] chunkSize overlap = []) ∧
    (∀ (text : GoStr) (chunkSize overlap : Int) (p : GoStr),
      p ∈ paragraphsOf text → p ≠ [] →
      (sLen p : Int) ≤ normalizedChunkSize chunkSize →
      ChunkText text chunkSize overlap ≠ []) := by
  constructor
  · intro cs ov
    unfold ChunkText
    dsimp only
    rw [show paragraphsOf [] = [[]] from rfl, List.foldl_cons, List.foldl_nil,
      processParagraph_empty _ _ (by split <;> omega)]
    rfl
  · intro text cs ov p hmem hp hfit
    obtain ⟨l1, l2, hsplit⟩ := List.append_of_mem hmem
    unfold ChunkText
    dsimp only
    rw [hsplit, List.foldl_append, List.foldl_cons]
    have hest :=
      processParagraph_establish (if cs ≤ 0 then 1000 else cs)
        (if ov < 0 ∨ ov ≥ if cs ≤ 0 then 1000 else cs
          then (if cs ≤ 0 then 1000 else cs) / 5 else ov)
        (l1.foldl
          (processParagraph (if cs ≤ 0 then 1000 else cs)
            (if ov < 0 ∨ ov ≥ if cs ≤ 0 then 1000 else cs
              then (if cs ≤ 0 then 1000 else cs) / 5 else ov))
          ([], [])) p hp hfit
    exact chunkStateOk_emit
      (foldl_processParagraph_ok (if cs ≤ 0 then 1000 else cs)
        (if ov < 0 ∨ ov ≥ if cs ≤ 0 then 1000 else cs
          then (if cs ≤ 0 then 1000 else cs) / 5 else ov) l2 _ hest)

/-- C7 witness: the amended statement at the concrete input `"hi"` (one
non-empty paragraph of 2 bytes). -/
theorem C7_witness : ChunkText (gs "hi") 1000 200 ≠ [] :=
  C7_amended.2 (gs "hi") 1000 200 (gs "hi") (by decide) (by decide)
    (by decide)

/-- C9: saving over an existing `(character, id)` carries the prior
version's `created_at` forward and stamps `updated_at` with the save
instant; title and message count come from the new submission. -/
theorem C9_created_at_preserved (now : Int) (character : GoStr)
    (chat : ChatHistory) (cs : ChatStore) (old : ChatRecord)
    (h : lookup? (character, chat.id) cs.files = some old) :
    lookup? (character, chat.id) (SaveChat now character chat cs).files =
      some ⟨⟨chat.id, chat.title, character, old.info.createdAt, now,
        chat.messages.length⟩, chat.messages⟩ := by
  unfold SaveChat updateCharacterInfo
  rw [h]
  exact lookup?_upsert_self _ _ _

/-- C9 witness: overwriting the transcript created at instant `5` with a
save at instant `9` keeps `created_at = 5` and sets `updated_at = 9`. -/
theorem C9_witness :
    lookup? (gs "Aria", gs "c1") (SaveChat 9 (gs "Aria") chat1 csPrior).files =
      some ⟨⟨gs "c1", gs "T", gs "Aria", 5, 9, 1⟩,
        [⟨gs "user", gs "hi", gs ""⟩]⟩ :=
  C9_created_at_preserved 9 (gs "Aria") chat1 csPrior
    ⟨⟨gs "c1", gs "old title", gs "Aria", 5, 5, 1⟩,
      [⟨gs "user", gs "old", gs ""⟩]⟩ (by decide)

end RagGo
